import Mathlib

/-!
Verification development for the shader auto-repair pipeline and preview
engine of script.js.  Shader text is shallowly embedded as a list of
characters; every textual transform of the source program is translated
into an executable Lean function that follows the JavaScript regex and
string semantics step by step.
-/

set_option maxRecDepth 100000

namespace ShaderFix

/-- Shader source text, embedded as a list of characters. -/
abbrev Src := List Char

/-- The apostrophe character (used by diagnostic patterns). -/
def sq : Char := Char.ofNat 39

/-- Opening brace character. -/
def obr : Char := Char.ofNat 123

/-- Closing brace character. -/
def cbr : Char := Char.ofNat 125

/-- The slash character. -/
def slashCh : Char := Char.ofNat 47

/-- JavaScript regex whitespace class (ASCII part): space, tab, newline,
carriage return, vertical tab, form feed. -/
def isJsSpace (c : Char) : Bool :=
  c = ' ' || c = '\t' || c = '\n' || c = '\r' || c = Char.ofNat 11 || c = Char.ofNat 12

/-- JavaScript regex word class: ASCII letters, digits and underscore. -/
def isWordChar (c : Char) : Bool := c.isAlphanum || c = '_'

/-- First character of a JavaScript identifier: ASCII letter or underscore. -/
def isIdentStart (c : Char) : Bool := c.isAlpha || c = '_'

/-- Characters matched by the JavaScript regex dot (no line terminators). -/
def notLineTerm (c : Char) : Bool := c ≠ '\n' && c ≠ '\r'

/-- Boolean prefix test on character lists. -/
def isPrefixStr : Src → Src → Bool
  | [], _ => true
  | _ :: _, [] => false
  | p :: ps, c :: cs => p = c && isPrefixStr ps cs

/-- Substring containment test (pattern, text). -/
def containsStr (pat : Src) : Src → Bool
  | [] => isPrefixStr pat []
  | c :: rest => isPrefixStr pat (c :: rest) || containsStr pat rest

/-- Number of positions of the text at which the pattern occurs. -/
def countStr (pat : Src) : Src → Nat
  | [] => if isPrefixStr pat [] then 1 else 0
  | c :: rest => (if isPrefixStr pat (c :: rest) then 1 else 0) + countStr pat rest

/-- Drop a literal from the front of the text, or fail. -/
def dropLit : Src → Src → Option Src
  | [], s => some s
  | _ :: _, [] => none
  | p :: ps, c :: cs => if p = c then dropLit ps cs else none

/-- Lowercase both sides and drop a literal, for case-insensitive matching. -/
def dropLitCI : Src → Src → Option Src
  | [], s => some s
  | _ :: _, [] => none
  | p :: ps, c :: cs => if p.toLower = c.toLower then dropLitCI ps cs else none

/-- Case-insensitive substring containment (pattern, text). -/
def containsCI (pat : Src) : Src → Bool
  | [] => (dropLitCI pat []).isSome
  | c :: rest => (dropLitCI pat (c :: rest)).isSome || containsCI pat rest

/-- Greedy one-or-more whitespace, as the regex fragment backslash-s-plus. -/
def dropWs1 : Src → Option Src
  | [] => none
  | c :: cs => if isJsSpace c then some (cs.dropWhile isJsSpace) else none

/-- JavaScript String.prototype.trim on both ends. -/
def trimStr (s : Src) : Src :=
  ((s.dropWhile isJsSpace).reverse.dropWhile isJsSpace).reverse

/-- JavaScript String.prototype.split on the newline character. -/
def splitNl : Src → List Src
  | [] => [[]]
  | c :: rest =>
    if c = '\n' then [] :: splitNl rest
    else
      match splitNl rest with
      | [] => [[c]]
      | t :: ts => (c :: t) :: ts

/-- JavaScript Array.prototype.join with a newline separator. -/
def joinNl : List Src → Src
  | [] => []
  | [l] => l
  | l :: ls => l ++ '\n' :: joinNl ls

/-- Fueled scanner for the global replacement of a literal pattern; every
step consumes at least one character, so the input length is sufficient
fuel. -/
def replaceAllAux (pat repl : Src) : Nat → Src → Src
  | 0, s => s
  | _ + 1, [] => []
  | n + 1, c :: rest =>
    if isPrefixStr pat (c :: rest) && !pat.isEmpty then
      repl ++ replaceAllAux pat repl n (rest.drop (pat.length - 1))
    else
      c :: replaceAllAux pat repl n rest

/-- Global replacement of a literal pattern, scanning left to right as a
JavaScript global regex over a literal does. -/
def replaceAllStr (pat repl : Src) (s : Src) : Src := replaceAllAux pat repl s.length s

/-- Last character of the trimmed line belongs to the given set. -/
def lastCharIs (t : Src) (cs : List Char) : Bool :=
  match t.getLast? with
  | some c => cs.contains c
  | none => false

/-- Scanner threading the word-ness of the previous character, used for
regex patterns that begin with a word-boundary assertion. -/
def scanWB (m : Bool → Src → Bool) : Bool → Src → Bool
  | prevW, [] => m prevW []
  | prevW, c :: rest => m prevW (c :: rest) || scanWB m (isWordChar c) rest

/-- Any suffix of the text satisfies the positional matcher. -/
def anyPos (p : Src → Bool) : Src → Bool
  | [] => p []
  | c :: rest => p (c :: rest) || anyPos p rest

/-! ### script.js lines 310-389: smartFixShader -/

/-- Line 313: normalize carriage returns, first the two-character sequence,
then lone carriage returns. -/
def normalizeNewlines (s : Src) : Src :=
  (replaceAllStr ['\r', '\n'] ['\n'] s).map (fun c => if c = '\r' then '\n' else c)

/-- Tail of the precision regex after the qualifier alternation. -/
def matchPrecTail (r : Src) : Bool :=
  match dropWs1 r with
  | none => false
  | some r4 =>
    match dropLit "float".data r4 with
    | none => false
    | some r5 =>
      match r5.dropWhile isJsSpace with
      | c :: _ => c = ';'
      | [] => false

/-- Positional match for the line-316 precision statement regex. -/
def matchPrecisionAt (s : Src) : Bool :=
  match dropLit "precision".data s with
  | none => false
  | some r1 =>
    match dropWs1 r1 with
    | none => false
    | some r2 =>
      match dropLit "lowp".data r2 with
      | some r3 => matchPrecTail r3
      | none =>
        match dropLit "mediump".data r2 with
        | some r3 => matchPrecTail r3
        | none =>
          match dropLit "highp".data r2 with
          | some r3 => matchPrecTail r3
          | none => false

/-- Line 316: the source already declares a float precision. -/
def hasPrecision (s : Src) : Bool := anyPos matchPrecisionAt s

/-- Lines 316-319: prepend a default precision statement when missing. -/
def stepPrecision (s : Src) : Src :=
  if hasPrecision s then s else "precision mediump float;".data ++ '\n' :: s

/-- Positional match for a uniform declaration regex with the given type
and name, with word boundaries at both ends. -/
def matchUniformAt (ty nm : Src) (prevW : Bool) (s : Src) : Bool :=
  !prevW &&
    (match dropLit "uniform".data s with
     | none => false
     | some r1 =>
       match dropWs1 r1 with
       | none => false
       | some r2 =>
         match dropLit ty r2 with
         | none => false
         | some r3 =>
           match dropWs1 r3 with
           | none => false
           | some r4 =>
             match dropLit nm r4 with
             | none => false
             | some r5 =>
               match r5 with
               | [] => true
               | c :: _ => !isWordChar c)

/-- The source declares the given uniform (lines 323-328 regexes). -/
def hasUniform (ty nm : Src) (s : Src) : Bool := scanWB (matchUniformAt ty nm) false s

/-- The fixed uniform table of lines 322-329, in source order. -/
def uniformDecls : List (Src × Src × Src) :=
  [ ("float".data, "uTime".data, "uniform float uTime;".data),
    ("vec2".data, "uResolution".data, "uniform vec2 uResolution;".data),
    ("sampler2D".data, "uSampler".data, "uniform sampler2D uSampler;".data),
    ("float".data, "uRotate".data, "uniform float uRotate;".data),
    ("float".data, "uZoom".data, "uniform float uZoom;".data),
    ("float".data, "uColorOffset".data, "uniform float uColorOffset;".data) ]

/-- One iteration of the lines 330-333 loop: prepend the declaration when
its regex does not match. -/
def uniformStep (acc : Src) (td : Src × Src × Src) : Src :=
  if hasUniform td.1 td.2.1 acc then acc else td.2.2 ++ '\n' :: acc

/-- Lines 330-334: prepend each missing uniform declaration in turn. -/
def stepUniforms (s : Src) : Src := uniformDecls.foldl uniformStep s

/-- The legacy texture call pattern. -/
def texPat : Src := "texture2D(".data

/-- The replacement text of the texture modernization. -/
def texRepl : Src := "texture(".data

/-- Lines 337-340: modernize legacy texture calls. -/
def stepTexture (s : Src) : Src :=
  if containsStr texPat s then replaceAllStr texPat texRepl s else s

/-- The trimmed line contains a close parenthesis followed by optional
whitespace and an open brace. -/
def hasParenBrace : Src → Bool
  | [] => false
  | c :: rest =>
    (c = ')' &&
      (match rest.dropWhile isJsSpace with
       | d :: _ => d = obr
       | [] => false)) || hasParenBrace rest

/-- The trimmed line starts with one of the qualifier keywords followed by
a word boundary (line 349 regex). -/
def startsQualifierTok (t : Src) : Bool :=
  [ "uniform".data, "attribute".data, "varying".data,
    "in".data, "out".data, "const".data ].any
    (fun q =>
      isPrefixStr q t &&
        (match t.drop q.length with
         | [] => true
         | c :: _ => !isWordChar c))

/-- Lines 343-352: the per-line semicolon heuristic of smartFixShader. -/
def fixLineSemicolon (ln : Src) : Src :=
  let t := trimStr ln
  if t.isEmpty then ln
  else if isPrefixStr [slashCh, slashCh] t || isPrefixStr [slashCh, '*'] t
      || isPrefixStr ['*'] t || isPrefixStr ['#'] t then ln
  else if hasParenBrace t || lastCharIs t [obr] || lastCharIs t [cbr] then ln
  else if lastCharIs t [';', ',', ')', obr, cbr] then ln
  else if startsQualifierTok t && !lastCharIs t [';'] then ln ++ [';']
  else if t.contains '=' && !containsStr ['=', '='] t && !lastCharIs t [';'] then ln ++ [';']
  else ln

/-- Lines 343-352: split into physical lines, patch each, rejoin. -/
def stepSemicolons (s : Src) : Src := joinNl ((splitNl s).map fixLineSemicolon)

/-- Swizzle component characters accepted by the line-356 regex. -/
def isXyzw (c : Char) : Bool := c = 'x' || c = 'y' || c = 'z' || c = 'w'

/-- Attempt the line-356 division-guard match directly after a slash:
optional whitespace, optional open parenthesis, identifier, optional
swizzle of one to four components, optional close parenthesis.  Returns
the two capture groups and the unconsumed rest. -/
def divMatch (rest : Src) : Option (Src × Src × Src) :=
  let r1 := rest.dropWhile isJsSpace
  let r2 := match r1 with
            | '(' :: t => t
            | _ => r1
  match r2 with
  | c :: t =>
    if isIdentStart c then
      let w := t.takeWhile isWordChar
      let r3 := t.drop w.length
      let ident := c :: w
      let g1r4 : Src × Src :=
        match r3 with
        | '.' :: u =>
          let sw := (u.takeWhile isXyzw).take 4
          if sw.isEmpty then (ident, r3) else (ident ++ '.' :: sw, u.drop sw.length)
        | _ => (ident, r3)
      match g1r4.2 with
      | ')' :: v => some (g1r4.1, [')'], v)
      | _ => some (g1r4.1, [], g1r4.2)
    else none
  | [] => none

/-- Fueled scanner for the global division-guard replacement.  The fuel is
the input length; every step consumes at least one character. -/
def guardDivAux : Nat → Src → Src
  | 0, s => s
  | _ + 1, [] => []
  | n + 1, c :: rest =>
    if c = slashCh then
      match divMatch rest with
      | some g =>
        (if (match g.1 with | d :: _ => d.isDigit | [] => false) then
           slashCh :: (g.1 ++ g.2.1)
         else
           "/ max(".data ++ g.1 ++ ", 0.000001)".data ++ g.2.1) ++ guardDivAux n g.2.2
      | none => slashCh :: guardDivAux n rest
    else c :: guardDivAux n rest

/-- Lines 356-359: guard divisions by bare identifiers or swizzles. -/
def guardDivisions (s : Src) : Src := guardDivAux s.length s

/-- Lines 363-368: append missing close braces (with a leading newline)
and then missing close parentheses. -/
def stepBalance (s : Src) : Src :=
  let opens := s.count obr
  let closes := s.count cbr
  let s1 := if closes < opens then s ++ '\n' :: List.replicate (opens - closes) cbr else s
  let opar := s1.count '('
  let cpar := s1.count ')'
  if cpar < opar then s1 ++ List.replicate (opar - cpar) ')' else s1

/-- Fueled scanner for a word-bounded literal global replacement. -/
def replaceWordAux (w repl : Src) : Nat → Bool → Src → Src
  | 0, _, s => s
  | _ + 1, _, [] => []
  | n + 1, prevW, c :: rest =>
    if !prevW && isPrefixStr w (c :: rest) && !w.isEmpty
        && (match (c :: rest).drop w.length with
            | [] => true
            | d :: _ => !isWordChar d) then
      repl ++
        replaceWordAux w repl n
          (match w.getLast? with
           | some lc => isWordChar lc
           | none => prevW)
          ((c :: rest).drop w.length)
    else c :: replaceWordAux w repl n (isWordChar c) rest

/-- Word-bounded literal global replacement, as the line-371 regexes. -/
def replaceWordAll (w repl : Src) (s : Src) : Src :=
  replaceWordAux w repl s.length false s

/-- Line 371: map bare undefined and NULL tokens to a float zero. -/
def stepPlaceholders (s : Src) : Src :=
  replaceWordAll "NULL".data "0.0".data (replaceWordAll "undefined".data "0.0".data s)

/-- Attempt the line-374 vector-initializer match at a position: vec2, vec3
or vec4, whitespace, identifier, an equals sign with optional spacing, a
numeric literal, optional spacing, semicolon.  Returns the replacement
text and the unconsumed rest. -/
def vecMatch (s : Src) : Option (Src × Src) :=
  match dropLit "vec".data s with
  | none => none
  | some r1 =>
    match r1 with
    | n :: r2 =>
      if n = '2' || n = '3' || n = '4' then
        match dropWs1 r2 with
        | none => none
        | some r3 =>
          match r3 with
          | c :: r4 =>
            if isIdentStart c then
              let w := r4.takeWhile isWordChar
              let r5 := r4.drop w.length
              let ident := c :: w
              match r5.dropWhile isJsSpace with
              | '=' :: r7 =>
                let r8 := r7.dropWhile isJsSpace
                let ds := r8.takeWhile Char.isDigit
                if ds.isEmpty then none
                else
                  let r9 := r8.drop ds.length
                  let numr10 : Src × Src :=
                    match r9 with
                    | '.' :: r9t =>
                      let fs := r9t.takeWhile Char.isDigit
                      if fs.isEmpty then (ds, r9) else (ds ++ '.' :: fs, r9t.drop fs.length)
                    | _ => (ds, r9)
                  match numr10.2.dropWhile isJsSpace with
                  | ';' :: r11 =>
                    some ("vec".data ++ [n, ' '] ++ ident ++ " = vec".data ++ [n, '(']
                            ++ numr10.1 ++ ");".data, r11)
                  | _ => none
              | _ => none
            else none
          | [] => none
      else none
    | [] => none

/-- Fueled scanner for the line-374 global replacement; the last character
of every match is a semicolon, so the following lookbehind is not a word
character. -/
def vecInitAux : Nat → Bool → Src → Src
  | 0, _, s => s
  | _ + 1, _, [] => []
  | n + 1, prevW, c :: rest =>
    if prevW then c :: vecInitAux n (isWordChar c) rest
    else
      match vecMatch (c :: rest) with
      | some rp => rp.1 ++ vecInitAux n false rp.2
      | none => c :: vecInitAux n (isWordChar c) rest

/-- Line 374: rewrite numeric initializers of vector variables. -/
def stepVecInit (s : Src) : Src := vecInitAux s.length false s

/-- Positional match for the line-377 main-presence regex. -/
def mainAt (prevW : Bool) (s : Src) : Bool :=
  !prevW &&
    (match dropLit "void".data s with
     | none => false
     | some r1 =>
       match dropWs1 r1 with
       | none => false
       | some r2 =>
         match dropLit "main".data r2 with
         | none => false
         | some r3 =>
           match r3.dropWhile isJsSpace with
           | c :: _ => c = '('
           | [] => false)

/-- The source contains a void main declaration (line 377 regex). -/
def hasMainDecl (s : Src) : Bool := scanWB mainAt false s

/-- The fallback main body appended at line 378. -/
def fallbackMain : Src := "\nvoid main()\x7b gl_FragColor = vec4(0.0); \x7d".data

/-- Lines 377-379: append the fallback main when no main is declared. -/
def stepEnsureMain (s : Src) : Src :=
  if hasMainDecl s then s else s ++ fallbackMain

/-- The ordered step list of smartFixShader (lines 313-379): newline
normalization, precision, uniforms, texture modernization, semicolons,
division guards, delimiter balancing, placeholders, vector initializers,
main presence. -/
def fixStepsList : List (Src → Src) :=
  [ normalizeNewlines, stepPrecision, stepUniforms, stepTexture, stepSemicolons,
    guardDivisions, stepBalance, stepPlaceholders, stepVecInit, stepEnsureMain ]

/-- Lines 310-389: the auto-repair pipeline. -/
def smartFixShader (code : Src) : Src :=
  fixStepsList.foldl (fun s f => f s) code

/-! ### script.js lines 392-464: parseErrorsAndFix -/

/-- Line 396: a log line is error-indicative (case-insensitive). -/
def errLinePat (l : Src) : Bool :=
  containsCI "error".data l || containsCI "failed".data l || containsCI "undefined".data l
    || containsCI "undeclared".data l || containsCI "expected".data l
    || containsCI "missing".data l || containsCI "unmatched".data l
    || containsCI "link error".data l

/-- A case-insensitive occurrence of the first pattern followed, with no
line terminator in between, by one of the second, as produced by a dot-star
between two literals in a JavaScript regex. -/
def seqCITest (p1 p2 : Src) : Src → Bool
  | [] => false
  | c :: rest =>
    (match dropLitCI p1 (c :: rest) with
     | some r => containsCI p2 (r.takeWhile notLineTerm)
     | none => false) || seqCITest p1 p2 rest

/-- The quoted semicolon text, three characters. -/
def quotedSemi : Src := [sq, ';', sq]

/-- Line 403: the missing-semicolon diagnostic test. -/
def semiTest (err : Src) : Bool :=
  containsCI ("expected ".data ++ quotedSemi) err
    || containsCI ("missing ".data ++ quotedSemi) err
    || seqCITest "syntax error".data ("expected ".data ++ quotedSemi) err
    || containsStr quotedSemi err

/-- Lines 404-411: the per-line semicolon heuristic used from logs. -/
def fixLineFromLogs (ln : Src) : Src :=
  let t := trimStr ln
  if t.isEmpty then ln
  else if isPrefixStr [slashCh, slashCh] t || isPrefixStr ['#'] t
      || lastCharIs t [';'] || lastCharIs t [obr] || lastCharIs t [cbr] then ln
  else if lastCharIs t [';', ',', ')', obr, cbr] then ln
  else if t.contains '=' && !containsStr ['=', '='] t then ln ++ [';']
  else ln

/-- Tail of the first undeclared-identifier alternative after the closing
quote: optional whitespace, colon, optional whitespace, the words
undeclared identifier. -/
def altATail (r : Src) : Bool :=
  match r.dropWhile isJsSpace with
  | c :: r2 =>
    c = ':' && (dropLitCI "undeclared identifier".data (r2.dropWhile isJsSpace)).isSome
  | [] => false

/-- Lazy capture of the first alternative: grow the group one character at
a time, trying the closing quote and tail first at every step. -/
def altAGroup : Src → Src → Option Src
  | _, [] => none
  | racc, c :: rest =>
    if c = sq && altATail rest then some racc.reverse
    else if notLineTerm c then altAGroup (c :: racc) rest
    else none

/-- First undeclared-identifier alternative at a position: a quoted lazy
group, a colon, the words undeclared identifier. -/
def altA : Src → Option Src
  | c :: rest => if c = sq then altAGroup [] rest else none
  | [] => none

/-- Lazy group closed by the first following quote. -/
def grabLazyToQuote : Src → Src → Option Src
  | _, [] => none
  | racc, c :: rest =>
    if c = sq then some racc.reverse
    else if notLineTerm c then grabLazyToQuote (c :: racc) rest
    else none

/-- Second alternative at a position: the words undeclared identifier,
optional whitespace, then a quoted lazy group. -/
def altB (s : Src) : Option Src :=
  match dropLitCI "undeclared identifier".data s with
  | none => none
  | some r1 =>
    match r1.dropWhile isJsSpace with
    | c :: r2 => if c = sq then grabLazyToQuote [] r2 else none
    | [] => none

/-- Tail of the third alternative after the closing quote: one space then
the word undeclared. -/
def altCTail (r : Src) : Bool :=
  match r with
  | ' ' :: r2 => (dropLitCI "undeclared".data r2).isSome
  | _ => false

/-- Lazy capture of the third alternative. -/
def altCGroup : Src → Src → Option Src
  | _, [] => none
  | racc, c :: rest =>
    if c = sq && altCTail rest then some racc.reverse
    else if notLineTerm c then altCGroup (c :: racc) rest
    else none

/-- Third alternative at a position: the word error, colon, space, then a
quoted lazy group followed by a space and the word undeclared. -/
def altC (s : Src) : Option Src :=
  match dropLitCI "error:".data s with
  | none => none
  | some r1 =>
    match r1 with
    | ' ' :: r2 =>
      match r2 with
      | c :: r3 => if c = sq then altCGroup [] r3 else none
      | [] => none
    | _ => none

/-- Line 416: leftmost match of the three undeclared-identifier
alternatives; at each position the alternatives are tried in order.
Returns the captured group of the successful alternative. -/
def findUndeclared : Src → Option Src
  | [] => none
  | c :: rest =>
    match altA (c :: rest) with
    | some g => some g
    | none =>
      match altB (c :: rest) with
      | some g => some g
      | none =>
        match altC (c :: rest) with
        | some g => some g
        | none => findUndeclared rest

/-- Line 426: the implicit-conversion diagnostic test. -/
def implicitTest (err : Src) : Bool :=
  containsCI "implicitly convert".data err
    || containsCI "cannot convert".data err
    || containsCI ("conversion from ".data ++ [sq] ++ "int".data ++ [sq]
         ++ " to ".data ++ [sq] ++ "float".data ++ [sq]) err
    || containsCI ("to ".data ++ [sq] ++ "float".data ++ [sq]) err

/-- Fueled scanner appending a float suffix to every word-bounded run of
digits (the line-427 regex). -/
def intToFloatAux : Nat → Bool → Src → Src
  | 0, _, s => s
  | _ + 1, _, [] => []
  | n + 1, prevW, c :: rest =>
    if !prevW && c.isDigit then
      let ds := rest.takeWhile Char.isDigit
      let r := rest.drop ds.length
      if (match r with | [] => true | d :: _ => !isWordChar d) then
        (c :: ds) ++ ".0".data ++ intToFloatAux n true r
      else c :: intToFloatAux n true rest
    else c :: intToFloatAux n (isWordChar c) rest

/-- Line 427: append a float suffix to every bounded integer token. -/
def intToFloatAll (s : Src) : Src := intToFloatAux s.length false s

/-- Line 432: the texture diagnostic test. -/
def texTest (err : Src) : Bool :=
  containsCI "texture2D(".data err || containsCI "texture(".data err

/-- Line 438: the missing-main diagnostic test. -/
def mainTest (err : Src) : Bool :=
  seqCITest "undefined reference".data "main".data err
    || containsCI "no main function".data err
    || containsCI "no symbol main".data err

/-- Line 446: the unbalanced-delimiter diagnostic test. -/
def unmatchedTest (err : Src) : Bool :=
  containsCI "unmatched".data err
    || seqCITest "missing".data "brace".data err
    || seqCITest "missing".data "parenth".data err

/-- Lines 401-454: apply every matching remediation of one diagnostic line
to the running patched source. -/
def applyErrLine (patched : Src) (err : Src) : Src :=
  let p1 := if semiTest err then joinNl ((splitNl patched).map fixLineFromLogs) else patched
  let p2 :=
    match findUndeclared err with
    | some g =>
      let idc := g.filter isWordChar
      if idc.isEmpty then p1
      else "uniform float ".data ++ idc ++ [';', '\n'] ++ p1
    | none => p1
  let p3 := if implicitTest err then intToFloatAll p2 else p2
  let p4 :=
    if texTest err && containsStr texPat p3 then replaceAllStr texPat texRepl p3
    else p3
  let p5 :=
    if mainTest err then (if hasMainDecl p4 then p4 else p4 ++ fallbackMain) else p4
  if unmatchedTest err then stepBalance p5 else p5

/-- Lines 395-397: trimmed non-empty log lines; the error-indicative subset
when non-empty, otherwise the first twenty lines. -/
def candidateErrorLines (logsText : Src) : List Src :=
  let lines := ((splitNl logsText).map trimStr).filter (fun l => !l.isEmpty)
  let errs := lines.filter errLinePat
  if errs.isEmpty then lines.take 20 else errs

/-- Lines 392-464: the log-driven remediation pass, finishing with the
auto-repair pipeline (line 457). -/
def parseErrorsAndFix (code logsText : Src) : Src :=
  smartFixShader ((candidateErrorLines logsText).foldl applyErrLine code)

/-! ### Exception semantics of the pipelines (lines 311, 385-388 and 393, 460-463)

The whole body of smartFixShader sits in one try block, and so does the
whole body of parseErrorsAndFix; each catch clause logs one error entry
and returns the argument unchanged.  To reason about the sentence of the
spec on internal exceptions, a step of a pipeline can be designated as
throwing; the thrown exception propagates through the remaining steps up
to that function's single catch.  For parseErrorsAndFix the steps are the
per-diagnostic-line patch applications of the forEach (lines 401-454)
followed by the final repair pass (line 457). -/

/-- Run the step list from the given index, raising at the designated
faulty step; steps after a raise never run. -/
def runStepsExc (fault : Option Nat) : Nat → List (Src → Src) → Src → Except Unit Src
  | _, [], s => Except.ok s
  | i, f :: fs, s =>
    if fault = some i then Except.error ()
    else runStepsExc fault (i + 1) fs (f s)

/-- smartFixShader with a designated faulty step: on a raise the top-level
catch returns the original argument and records one error entry (the
boolean component). -/
def smartFixShaderFaulty (fault : Option Nat) (code : Src) : Src × Bool :=
  match runStepsExc fault 0 fixStepsList code with
  | Except.ok out => (out, false)
  | Except.error _ => (code, true)

/-- The operation sequence of one parseErrorsAndFix call: one patch
application per candidate diagnostic line, then the final repair pass. -/
def remediateOps (logsText : Src) : List (Src → Src) :=
  (candidateErrorLines logsText).map (fun err s => applyErrLine s err) ++ [smartFixShader]

/-- parseErrorsAndFix with a designated faulty step: on a raise its
top-level catch (lines 460-463) returns the original argument and records
one error entry (the boolean component). -/
def parseErrorsAndFixFaulty (fault : Option Nat) (code logsText : Src) : Src × Bool :=
  match runStepsExc fault 0 (remediateOps logsText) code with
  | Except.ok out => (out, false)
  | Except.error _ => (code, true)

/-- Modelled from the spec: the behaviour the spec ascribes to an internal
exception, namely that the failing step alone is skipped, the pre-step
source is carried forward, and all remaining steps still run. -/
def specSkipPipeline (fault : Option Nat) (code : Src) : Src :=
  (fixStepsList.enum.foldl
    (fun s fi => if fault = some fi.1 then s else fi.2 s) code)

/-! ### GLSL colour semantics for the fallback main

In GLSL ES, a vector constructor applied to a single scalar broadcasts
that scalar to every component; component 3 of gl_FragColor is alpha. -/

/-- Single-argument vec4 constructor: broadcast to all four components. -/
def glslVec4Single (x : ℚ) : Fin 4 → ℚ := fun _ => x

/-- Modelled from the spec: the colour the spec describes for the fallback
fragment, opaque black, all colour components zero and alpha one. -/
def specOpaqueBlack : Fin 4 → ℚ := fun i => if i = 3 then 1 else 0

/-! ### script.js lines 648-722: compileAndRun state machine

The graphics context is abstracted by an oracle giving the outcome of the
vertex compile, the fragment compile and the link (none is success, some
info is the driver diagnostic).  The engine state keeps the current
program handle, the status label and the compile log (newest entry
first), as lines 648-722 do. -/

/-- Engine status, following the statusLabel writes of lines 716 and 720
and the idle state after stopPreview. -/
inductive EngineStatus
  | idle
  | running
  | compileFailed
  deriving DecidableEq, Repr

/-- Outcome of the three graphics-driver calls of one compileAndRun. -/
structure GlOracle where
  vsInfo : Option Src
  fsInfo : Option Src
  linkInfo : Option Src

/-- Abstracted engine state: the current program object (by identifier),
a fresh-identifier supply, the status, and the compile log. -/
structure Engine where
  program : Option Nat
  nextId : Nat
  status : EngineStatus
  log : List Src
  deriving DecidableEq, Repr

/-- Lines 717-721: the catch clause, prefixing the thrown message and
setting the failure status; the program field is not written here. -/
def failState (e : Engine) (msg : Src) : Engine :=
  { e with status := EngineStatus.compileFailed,
           log := ("Compile/Link failed: ".data ++ msg) :: e.log }

/-- Lines 648-722: compile the fixed vertex stage, compile the fragment
source, delete the previous program, link, and either install the new
program and run, or fall into the catch clause.  A compile throw happens
before the old program is deleted; a link throw happens after. -/
def compileAndRun (o : GlOracle) (e : Engine) : Engine :=
  match o.vsInfo with
  | some info => failState e info
  | none =>
    match o.fsInfo with
    | some info => failState e info
    | none =>
      let e1 : Engine := { e with program := none }
      match o.linkInfo with
      | some info => failState e1 ("Link error: ".data ++ info)
      | none =>
        { e1 with program := some e1.nextId, nextId := e1.nextId + 1,
                  status := EngineStatus.running,
                  log := "Compiled & preview running".data :: e1.log }

/-! ### script.js lines 616, 760-797: interaction state and gestures

Zoom-relevant gesture handlers embedded over the rationals: the wheel
handler (lines 760-763), the two-finger touch handlers (lines 768-779,
781-789, 797) and the click handler (line 765).  The pinch distance
produced by Math.hypot is abstracted as the rational the event carries;
the single-pointer drag handlers write only the dragging flag, the last
pointer coordinates and the rotation, never the zoom, so they are not
distinguished here beyond the touchend reset. -/

/-- The interaction state of line 616. -/
structure Interaction where
  rotation : ℚ
  zoom : ℚ
  colorOffset : ℚ
  dragging : Bool
  lastX : ℚ
  lastY : ℚ
  pinchDist : ℚ
  deriving DecidableEq, Repr

/-- Line 616: the initial interaction state. -/
def initInteraction : Interaction :=
  { rotation := 0, zoom := 1, colorOffset := 0, dragging := false,
    lastX := 0, lastY := 0, pinchDist := 0 }

/-- Wheel and two-finger pinch gestures (with the click and touch-end
events that share their handlers). -/
inductive Gesture
  | wheel (deltaY : ℚ)
  | pinchStart (d : ℚ)
  | pinchMove (nd : ℚ)
  | clickEv
  | touchEndEv

/-- The clamp applied to every zoom write (lines 762 and 788). -/
def clampZoom (v : ℚ) : ℚ := max 0.18 (min 6.0 v)

/-- Lines 760-797: the per-event state update. -/
def applyGesture (s : Interaction) : Gesture → Interaction
  | Gesture.wheel dy => { s with zoom := clampZoom (s.zoom * (1 - dy * 0.0018)) }
  | Gesture.pinchStart d => { s with pinchDist := d }
  | Gesture.pinchMove nd =>
    if s.pinchDist ≠ 0 then
      { s with zoom := clampZoom (s.zoom * (nd / s.pinchDist)), pinchDist := nd }
    else s
  | Gesture.clickEv => { s with colorOffset := s.colorOffset + 0.7 }
  | Gesture.touchEndEv => { s with dragging := false, pinchDist := 0 }

/-! ### Concrete inputs used by the theorems -/

/-- The example source of the precision claim: a complete main with no
precision statement. -/
def c1src : Src := "void main()\x7b gl_FragColor = vec4(1.0); \x7d".data

/-- A source whose repair ends in a newline-separated slash followed by
the appended fallback main. -/
def c8src : Src := "a /".data

/-- The diagnostic line about an undeclared identifier foo. -/
def fooLine : Src :=
  "ERROR: ".data ++ [sq] ++ "foo".data ++ [sq] ++ " : undeclared identifier".data

/-- A diagnostic line whose quoted identifier sanitizes to nothing. -/
def pctLine : Src :=
  "ERROR: ".data ++ [sq] ++ "%%".data ++ [sq] ++ " : undeclared identifier".data

/-- A diagnostic line whose quoted identifier needs sanitizing. -/
def messyLine : Src :=
  "ERROR: ".data ++ [sq] ++ "f-o o9".data ++ [sq] ++ " : undeclared identifier".data

/-- A diagnostic line matching only the implicit-conversion category. -/
def convLine : Src := "cannot convert".data

/-- The non-empty proper suffixes of the legacy texture pattern, used to
show the replacement cannot manufacture new occurrences. -/
def texSuffixes : List Src :=
  [ "exture2D(".data, "xture2D(".data, "ture2D(".data, "ure2D(".data,
    "re2D(".data, "e2D(".data, "2D(".data, "D(".data, "(".data ]

/-- The texture replacement scanner specialized to its concrete pattern,
provably equal to the generic scanner and easier to reason about. -/
def replaceTexAux : Nat → Src → Src
  | 0, s => s
  | _ + 1, [] => []
  | n + 1, c :: rest =>
    if isPrefixStr texPat (c :: rest) then texRepl ++ replaceTexAux n (rest.drop 9)
    else c :: replaceTexAux n rest

/-- Word-ness of the character last seen after scanning a prefix, given
the word-ness before it. -/
def prevAfter (pre : Src) (p : Bool) : Bool :=
  match pre.getLast? with
  | some c => isWordChar c
  | none => p

/-- An engine with a running program, for the recompile-failure claims. -/
def c2Engine : Engine :=
  { program := some 1, nextId := 2, status := EngineStatus.running, log := [] }

/-- An oracle whose compiles succeed and whose link fails. -/
def linkFailOracle : GlOracle :=
  { vsInfo := none, fsInfo := none, linkInfo := some "bad".data }

/-! ## Helper lemmas -/

/-- The division-guard scanner leaves slash-free text unchanged. -/
theorem guardDivAux_no_slash (n : Nat) : ∀ (s : Src), slashCh ∉ s → guardDivAux n s = s := by
  induction n with
  | zero => intro s _; rfl
  | succ n ih =>
    intro s hs
    cases s with
    | nil => rfl
    | cons c rest =>
      have hc : ¬ c = slashCh := fun h => hs (h ▸ List.mem_cons_self c rest)
      have hr : slashCh ∉ rest := fun h => hs (List.mem_cons_of_mem c h)
      simp [guardDivAux, hc, ih rest hr]

/-- The integer-suffix scanner leaves digit-free text unchanged. -/
theorem intToFloatAux_no_digit (n : Nat) :
    ∀ (prevW : Bool) (s : Src), (∀ c ∈ s, c.isDigit = false) →
      intToFloatAux n prevW s = s := by
  induction n with
  | zero => intro _ s _; rfl
  | succ n ih =>
    intro prevW s hs
    cases s with
    | nil => rfl
    | cons c rest =>
      have hc := hs c (List.mem_cons_self c rest)
      have hr : ∀ d ∈ rest, d.isDigit = false := fun d hd => hs d (List.mem_cons_of_mem c hd)
      simp [intToFloatAux, hc, ih _ rest hr]

/-! ## Claim C5 -/

/-- C5: counterexample.  The claim says every occurrence of a slash,
open parenthesis, identifier, close parenthesis is rewritten into a
guarded division with the rest of the text unchanged; the code instead
drops the consumed open parenthesis and re-emits the close parenthesis,
so the result carries a stray close parenthesis. -/
theorem c5_counterexample :
    guardDivisions "a /(b)".data = "a / max(b, 0.000001))".data ∧
    guardDivisions "a /(b)".data ≠ "a / max(b, 0.000001)".data := by
  exact ⟨by decide, by decide⟩

/-- C5 (amended): the division guard leaves slash-free text unchanged;
a division by a bare identifier is guarded, a numeric denominator is left
alone, and a parenthesized identifier denominator loses its open
parenthesis while the close parenthesis is re-emitted after the guard. -/
theorem c5_amended :
    (∀ s : Src, slashCh ∉ s → guardDivisions s = s) ∧
    guardDivisions "a / b".data = "a / max(b, 0.000001)".data ∧
    guardDivisions "a / 2.0".data = "a / 2.0".data ∧
    guardDivisions "a /(b)".data = "a / max(b, 0.000001))".data := by
  exact ⟨fun s hs => guardDivAux_no_slash s.length s hs, by decide, by decide, by decide⟩

/-- C5: witness for the amended theorem at a concrete slash-free input. -/
theorem c5_witness :
    slashCh ∉ "ab".data ∧ guardDivisions "ab".data = "ab".data :=
  ⟨by decide, c5_amended.1 "ab".data (by decide)⟩

/-! ## Claim C6 -/

/-- C6: counterexample.  The claim says non-integer tokens, including
existing float literals, are left intact by the implicit-int-to-float
remediation; the code rewrites every word-bounded digit run, so the float
literal 2.0 becomes 2.0.0.0. -/
theorem c6_counterexample :
    applyErrLine "a = 2.0;".data convLine = "a = 2.0.0.0;".data ∧
    intToFloatAll "a = 2.0;".data = "a = 2.0.0.0;".data ∧
    intToFloatAll "a = 2.0;".data ≠ "a = 2.0;".data := by
  exact ⟨by decide, by decide, by decide⟩

/-- C6 (amended): the implicit-int-to-float remediation appends a float
suffix to every word-bounded maximal digit run: bare integer literals are
suffixed, digit runs inside existing float literals are suffixed as well,
digits embedded in identifiers are untouched, and digit-free text is left
unchanged. -/
theorem c6_amended :
    (∀ s : Src, (∀ c ∈ s, c.isDigit = false) → intToFloatAll s = s) ∧
    intToFloatAll "x = 2 + y3 + 12;".data = "x = 2.0 + y3 + 12.0;".data ∧
    intToFloatAll "a = 2.0;".data = "a = 2.0.0.0;".data := by
  exact ⟨fun s hs => intToFloatAux_no_digit s.length false s hs, by decide, by decide⟩

/-- C6: witness for the amended theorem at a concrete digit-free input. -/
theorem c6_witness :
    (∀ c ∈ "ax".data, c.isDigit = false) ∧ intToFloatAll "ax".data = "ax".data :=
  ⟨by decide, c6_amended.1 "ax".data (by decide)⟩

/-- Scanning a prefix only changes the word-ness state, so a scan hit on
the tail from the state left by the prefix is a hit on the whole. -/
theorem prevAfter_cons (c : Char) (pre : Src) (p : Bool) :
    prevAfter (c :: pre) p = prevAfter pre (isWordChar c) := by
  cases pre with
  | nil => rfl
  | cons d pre2 => rfl

/-- A word-boundary scan succeeding on the tail, started from the state
the prefix leaves behind, succeeds on the concatenation. -/
theorem scanWB_append_right (m : Bool → Src → Bool) :
    ∀ (pre : Src) (p : Bool) (t : Src),
      scanWB m (prevAfter pre p) t = true → scanWB m p (pre ++ t) = true := by
  intro pre
  induction pre with
  | nil => intro p t h; simpa using h
  | cons c pre2 ih =>
    intro p t h
    rw [prevAfter_cons] at h
    have h2 := ih (isWordChar c) t h
    simp [scanWB, h2]

/-- A successful Boolean prefix test exposes the text as pattern plus
remainder. -/
theorem isPrefixStr_exists : ∀ (p s : Src), isPrefixStr p s = true → ∃ t, s = p ++ t := by
  intro p
  induction p with
  | nil => intro s _; exact ⟨s, rfl⟩
  | cons a p2 ih =>
    intro s h
    cases s with
    | nil => simp [isPrefixStr] at h
    | cons b s2 =>
      simp only [isPrefixStr, Bool.and_eq_true, decide_eq_true_eq] at h
      obtain ⟨t, ht⟩ := ih s2 h.2
      exact ⟨t, by simp [h.1, ht]⟩

/-- The appended fallback main always satisfies the main-presence regex,
whatever precedes it. -/
theorem hasMainDecl_append_fallback (s : Src) : hasMainDecl (s ++ fallbackMain) = true := by
  apply scanWB_append_right
  cases h : prevAfter s false
  · decide
  · decide

/-! ## Claim C4 -/

/-- C4: counterexample.  The claim says the appended fallback writes an
opaque black fragment; the appended text assigns vec4(0.0), whose
broadcast has alpha zero, not the alpha-one opaque black of the spec. -/
theorem c4_counterexample :
    stepEnsureMain [] = fallbackMain ∧
    containsStr "gl_FragColor = vec4(0.0);".data (stepEnsureMain []) = true ∧
    glslVec4Single 0 ≠ specOpaqueBlack := by
  refine ⟨by decide, by decide, fun h => ?_⟩
  have h3 := congrFun h 3
  norm_num [glslVec4Single, specOpaqueBlack] at h3

/-- C4 (amended): when no void main declaration is present the step
appends the fallback main, which writes vec4(0.0) — transparent black,
all four components zero; when a declaration is present nothing is
appended; and the result always contains a main declaration. -/
theorem c4_amended :
    (∀ s : Src, hasMainDecl (stepEnsureMain s) = true) ∧
    (∀ s : Src, hasMainDecl s = true → stepEnsureMain s = s) ∧
    (∀ s : Src, hasMainDecl s = false → stepEnsureMain s = s ++ fallbackMain) ∧
    fallbackMain = '\n' :: "void main()".data ++ obr :: " gl_FragColor = vec4(0.0); ".data ++ [cbr] ∧
    glslVec4Single 0 3 = 0 := by
  refine ⟨fun s => ?_, fun s h => by simp [stepEnsureMain, h],
    fun s h => by simp [stepEnsureMain, h], by decide, rfl⟩
  by_cases h : hasMainDecl s = true
  · simp [stepEnsureMain, h]
  · have h2 : hasMainDecl s = false := by simpa using h
    simp [stepEnsureMain, h2, hasMainDecl_append_fallback]

/-- C4: witness for the amended theorem at concrete inputs with and
without a main declaration. -/
theorem c4_witness :
    (hasMainDecl "x".data = false ∧ stepEnsureMain "x".data = "x".data ++ fallbackMain) ∧
    (hasMainDecl "void main()\x7b\x7d".data = true ∧
      stepEnsureMain "void main()\x7b\x7d".data = "void main()\x7b\x7d".data) :=
  ⟨⟨by decide, c4_amended.2.2.1 "x".data (by decide)⟩,
   ⟨by decide, c4_amended.2.1 "void main()\x7b\x7d".data (by decide)⟩⟩

/-! ## Claim C1 -/

/-- C1: counterexample.  The claim says the repaired example starts with a
precision line; the missing uniform declarations are prepended in front of
the inserted precision line, so the output starts with a uniform
declaration instead. -/
theorem c1_counterexample :
    isPrefixStr "precision mediump float;".data (smartFixShader c1src) = false := by
  decide

/-- C1 (amended): the repaired example contains the inserted precision
line, but it is preceded by the six prepended uniform declarations (the
first line is the uColorOffset declaration), and no second main is
appended. -/
theorem c1_amended :
    containsStr "precision mediump float;\n".data (smartFixShader c1src) = true ∧
    isPrefixStr "uniform float uColorOffset;\n".data (smartFixShader c1src) = true ∧
    countStr "void main(".data (smartFixShader c1src) = 1 := by
  exact ⟨by decide, by decide, by decide⟩

/-! ## Claim C8: step idempotence lemmas -/

/-- The prepended precision line satisfies the precision regex. -/
theorem hasPrecision_prepended (s : Src) :
    hasPrecision ("precision mediump float;".data ++ '\n' :: s) = true := rfl

/-- The precision step is idempotent. -/
theorem stepPrecision_idem (s : Src) : stepPrecision (stepPrecision s) = stepPrecision s := by
  by_cases h : hasPrecision s = true
  · simp [stepPrecision, h]
  · have h2 : hasPrecision s = false := by simpa using h
    have e1 : stepPrecision s = "precision mediump float;".data ++ '\n' :: s := by
      rw [stepPrecision, h2]
      simp
    rw [e1, stepPrecision, hasPrecision_prepended]
    simp

/-- The main-presence step is idempotent. -/
theorem stepEnsureMain_idem (s : Src) :
    stepEnsureMain (stepEnsureMain s) = stepEnsureMain s := by
  by_cases h : hasMainDecl s = true
  · simp [stepEnsureMain, h]
  · have h2 : hasMainDecl s = false := by simpa using h
    simp [stepEnsureMain, h2, hasMainDecl_append_fallback]

/-- After one uniform step, the declaration it guards is present. -/
theorem uniformStep_has (td : Src × Src × Src) (htd : td ∈ uniformDecls) (acc : Src) :
    hasUniform td.1 td.2.1 (uniformStep acc td) = true := by
  by_cases h : hasUniform td.1 td.2.1 acc = true
  · simp [uniformStep, h]
  · have h2 : hasUniform td.1 td.2.1 acc = false := by simpa using h
    simp only [uniformStep, h2, Bool.false_eq_true, if_false]
    fin_cases htd <;> rfl

/-- A uniform declaration already present survives any other uniform step,
because every prepended declaration ends in a newline. -/
theorem uniformStep_preserve (td td2 : Src × Src × Src) (htd2 : td2 ∈ uniformDecls)
    (acc : Src) (h : hasUniform td.1 td.2.1 acc = true) :
    hasUniform td.1 td.2.1 (uniformStep acc td2) = true := by
  by_cases h2 : hasUniform td2.1 td2.2.1 acc = true
  · simpa [uniformStep, h2]
  · have h3 : hasUniform td2.1 td2.2.1 acc = false := by simpa using h2
    simp only [uniformStep, h3, Bool.false_eq_true, if_false]
    have hsplit : td2.2.2 ++ '\n' :: acc = (td2.2.2 ++ ['\n']) ++ acc := by simp
    rw [hsplit]
    show scanWB (matchUniformAt td.1 td.2.1) false ((td2.2.2 ++ ['\n']) ++ acc) = true
    apply scanWB_append_right
    have hpa : prevAfter (td2.2.2 ++ ['\n']) false = false := by
      fin_cases htd2 <;> rfl
    rw [hpa]
    exact h

/-- A present uniform declaration survives a whole fold of uniform steps. -/
theorem foldl_uniform_preserve (td : Src × Src × Src) :
    ∀ (l : List (Src × Src × Src)) (acc : Src), (∀ td2 ∈ l, td2 ∈ uniformDecls) →
      hasUniform td.1 td.2.1 acc = true →
      hasUniform td.1 td.2.1 (l.foldl uniformStep acc) = true := by
  intro l
  induction l with
  | nil => intro acc _ h; simpa using h
  | cons hd tl ih =>
    intro acc hmem h
    simp only [List.foldl_cons]
    exact ih (uniformStep acc hd) (fun td2 h2 => hmem td2 (List.mem_cons_of_mem hd h2))
      (uniformStep_preserve td hd (hmem hd (List.mem_cons_self hd tl)) acc h)

/-- After folding the uniform steps, every processed declaration is
present. -/
theorem foldl_uniform_all :
    ∀ (l : List (Src × Src × Src)) (acc : Src), (∀ td2 ∈ l, td2 ∈ uniformDecls) →
      ∀ td ∈ l, hasUniform td.1 td.2.1 (l.foldl uniformStep acc) = true := by
  intro l
  induction l with
  | nil => intro acc _ td hm; simp at hm
  | cons hd tl ih =>
    intro acc hmem td hm
    simp only [List.foldl_cons]
    rcases List.mem_cons.mp hm with rfl | hm2
    · exact foldl_uniform_preserve td tl (uniformStep acc td)
        (fun td2 h2 => hmem td2 (List.mem_cons_of_mem td h2))
        (uniformStep_has td (hmem td (List.mem_cons_self td tl)) acc)
    · exact ih (uniformStep acc hd)
        (fun td2 h2 => hmem td2 (List.mem_cons_of_mem hd h2)) td hm2

/-- Folding the uniform steps over a source that already has every
declaration changes nothing. -/
theorem foldl_uniform_id :
    ∀ (l : List (Src × Src × Src)) (acc : Src),
      (∀ td ∈ l, hasUniform td.1 td.2.1 acc = true) → l.foldl uniformStep acc = acc := by
  intro l
  induction l with
  | nil => intro acc _; rfl
  | cons hd tl ih =>
    intro acc h
    have h1 : uniformStep acc hd = acc := by
      simp [uniformStep, h hd (List.mem_cons_self hd tl)]
    simp only [List.foldl_cons, h1]
    exact ih acc (fun td hm => h td (List.mem_cons_of_mem hd hm))

/-- The uniform-declaration step is idempotent. -/
theorem stepUniforms_idem (s : Src) : stepUniforms (stepUniforms s) = stepUniforms s :=
  foldl_uniform_id uniformDecls (stepUniforms s)
    (fun td hm => foldl_uniform_all uniformDecls s (fun _ h => h) td hm)

/-- The specialized texture scanner agrees with the generic one. -/
theorem replaceTexAux_eq (n : Nat) :
    ∀ s, replaceAllAux texPat texRepl n s = replaceTexAux n s := by
  induction n with
  | zero => intro s; rfl
  | succ n ih =>
    intro s
    cases s with
    | nil => rfl
    | cons c rest =>
      have hne : (texPat.isEmpty = false) := rfl
      have hlen : texPat.length - 1 = 9 := rfl
      by_cases hb : isPrefixStr texPat (c :: rest) = true
      · simp [replaceAllAux, replaceTexAux, hb, hne, hlen, ih]
      · have hb2 : isPrefixStr texPat (c :: rest) = false := by simpa using hb
        simp [replaceAllAux, replaceTexAux, hb2, hne, ih]

/-- Occurrences of the legacy pattern in the replacement text plus a tail
are exactly the occurrences in the tail: every alignment that overlaps
the replacement text mismatches inside it. -/
theorem containsStr_texRepl_append (X : Src) :
    containsStr texPat (texRepl ++ X) = containsStr texPat X := rfl

/-- One cons step of the prefix test, under a congruent tail. -/
theorem prefix_cons_congr (p0 : Char) (p2 Y rest : Src) (c : Char)
    (hY : isPrefixStr p2 Y = isPrefixStr p2 rest) :
    isPrefixStr (p0 :: p2) (c :: Y) = isPrefixStr (p0 :: p2) (c :: rest) := by
  simp only [isPrefixStr, hY]

/-- The texture replacement leaves no legacy occurrence behind and does
not change whether the text starts with a proper suffix of the pattern. -/
theorem replaceTexAux_spec :
    ∀ (n : Nat) (s : Src), s.length ≤ n →
      containsStr texPat (replaceTexAux n s) = false ∧
      (∀ p ∈ texSuffixes, isPrefixStr p (replaceTexAux n s) = isPrefixStr p s) := by
  intro n
  induction n with
  | zero =>
    intro s h
    have hs : s = [] := List.length_eq_zero.mp (Nat.le_zero.mp h)
    subst hs
    exact ⟨rfl, fun p _ => rfl⟩
  | succ n ih =>
    intro s h
    cases s with
    | nil => exact ⟨rfl, fun p _ => rfl⟩
    | cons c rest =>
      by_cases hb : isPrefixStr texPat (c :: rest) = true
      · obtain ⟨t, ht⟩ := isPrefixStr_exists texPat (c :: rest) hb
        have ht2 : c :: rest = 't' :: ("exture2D(".data ++ t) := ht
        injection ht2 with hc hrest
        have hdrop : rest.drop 9 = t := by
          rw [hrest]
          have h9 : ("exture2D(".data).length = 9 := rfl
          rw [← h9, List.drop_left]
        have hlen : t.length ≤ n := by
          have h1 : rest.length + 1 ≤ n + 1 := by simpa using h
          have h9 : ("exture2D(".data).length = 9 := rfl
          have h2 : rest.length = 9 + t.length := by rw [hrest, List.length_append, h9]
          omega
        obtain ⟨ih1, ih2⟩ := ih t hlen
        have hstep : replaceTexAux (n + 1) (c :: rest) = texRepl ++ replaceTexAux n t := by
          simp [replaceTexAux, hb, hdrop]
        rw [hstep]
        constructor
        · rw [containsStr_texRepl_append]
          exact ih1
        · intro p hp
          rw [ht]
          simp only [texSuffixes, List.mem_cons, List.mem_nil_iff, or_false] at hp
          rcases hp with rfl | rfl | rfl | rfl | rfl | rfl | rfl | rfl | rfl <;> rfl
      · have hb2 : isPrefixStr texPat (c :: rest) = false := by simpa using hb
        have hlen : rest.length ≤ n := by
          have h1 : rest.length + 1 ≤ n + 1 := by simpa using h
          omega
        obtain ⟨ih1, ih2⟩ := ih rest hlen
        have hstep : replaceTexAux (n + 1) (c :: rest) = c :: replaceTexAux n rest := by
          simp [replaceTexAux, hb2]
        rw [hstep]
        have hmem1 : ("exture2D(".data) ∈ texSuffixes := by simp [texSuffixes]
        constructor
        · show (isPrefixStr texPat (c :: replaceTexAux n rest)
              || containsStr texPat (replaceTexAux n rest)) = false
          rw [ih1, Bool.or_false]
          have e1 : isPrefixStr texPat (c :: replaceTexAux n rest)
              = (decide ('t' = c) && isPrefixStr "exture2D(".data (replaceTexAux n rest)) := rfl
          have e2 : isPrefixStr texPat (c :: rest)
              = (decide ('t' = c) && isPrefixStr "exture2D(".data rest) := rfl
          rw [e1, ih2 "exture2D(".data hmem1, ← e2, hb2]
        · intro p hp
          simp only [texSuffixes, List.mem_cons, List.mem_nil_iff, or_false] at hp
          rcases hp with rfl | rfl | rfl | rfl | rfl | rfl | rfl | rfl | rfl
          · exact prefix_cons_congr 'e' "xture2D(".data _ rest c
              (ih2 "xture2D(".data (by simp [texSuffixes]))
          · exact prefix_cons_congr 'x' "ture2D(".data _ rest c
              (ih2 "ture2D(".data (by simp [texSuffixes]))
          · exact prefix_cons_congr 't' "ure2D(".data _ rest c
              (ih2 "ure2D(".data (by simp [texSuffixes]))
          · exact prefix_cons_congr 'u' "re2D(".data _ rest c
              (ih2 "re2D(".data (by simp [texSuffixes]))
          · exact prefix_cons_congr 'r' "e2D(".data _ rest c
              (ih2 "e2D(".data (by simp [texSuffixes]))
          · exact prefix_cons_congr 'e' "2D(".data _ rest c
              (ih2 "2D(".data (by simp [texSuffixes]))
          · exact prefix_cons_congr '2' "D(".data _ rest c
              (ih2 "D(".data (by simp [texSuffixes]))
          · exact prefix_cons_congr 'D' "(".data _ rest c
              (ih2 "(".data (by simp [texSuffixes]))
          · exact prefix_cons_congr '(' [] _ rest c rfl

/-- The texture replacement removes every legacy occurrence. -/
theorem containsStr_replaceTex (s : Src) :
    containsStr texPat (replaceAllStr texPat texRepl s) = false := by
  rw [replaceAllStr, replaceTexAux_eq]
  exact (replaceTexAux_spec s.length s (le_refl _)).1

/-- The texture-modernization step is idempotent. -/
theorem stepTexture_idem (s : Src) : stepTexture (stepTexture s) = stepTexture s := by
  by_cases h : containsStr texPat s = true
  · have h1 : stepTexture s = replaceAllStr texPat texRepl s := by simp [stepTexture, h]
    rw [h1]
    simp [stepTexture, containsStr_replaceTex]
  · have h2 : containsStr texPat s = false := by simpa using h
    simp [stepTexture, h2]

/-! ## Claim C8 -/

/-- C8: counterexample.  The claim says a second repair run never appends
a second fallback main; for the input consisting of a letter, a space and
a slash, the second run of the division guard rewrites the slash and the
newline-separated word void of the appended fallback into a guarded
division, after which the main-presence regex no longer matches and a
second fallback main is appended, so repair of repair differs from
repair. -/
theorem c8_counterexample :
    smartFixShader (smartFixShader c8src) ≠ smartFixShader c8src ∧
    countStr " gl_FragColor = vec4(0.0); ".data (smartFixShader (smartFixShader c8src)) = 2 ∧
    countStr " gl_FragColor = vec4(0.0); ".data (smartFixShader c8src) = 1 :=
  ⟨by decide, by decide, by decide⟩

/-- C8 (amended): the precision, uniform-declaration, texture and
main-presence steps are each idempotent on their own, and the whole
repair is idempotent on the example source with a main and no slash; but
full repair is not idempotent in general, because an interleaved second
division-guard pass can destroy the markers the four steps test for. -/
theorem c8_amended :
    (∀ s : Src, stepPrecision (stepPrecision s) = stepPrecision s) ∧
    (∀ s : Src, stepUniforms (stepUniforms s) = stepUniforms s) ∧
    (∀ s : Src, stepTexture (stepTexture s) = stepTexture s) ∧
    (∀ s : Src, stepEnsureMain (stepEnsureMain s) = stepEnsureMain s) ∧
    smartFixShader (smartFixShader c1src) = smartFixShader c1src :=
  ⟨stepPrecision_idem, stepUniforms_idem, stepTexture_idem, stepEnsureMain_idem, by decide⟩

/-! ## Claim C2 -/

/-- C2: counterexample.  The claim says a failed compile or link always
leaves the previously running program untouched; on a link failure the
previous program has already been deleted before the link attempt, so
the program field ends as none instead of the old program. -/
theorem c2_counterexample :
    (compileAndRun linkFailOracle c2Engine).program = none ∧
    c2Engine.program = some 1 ∧
    (compileAndRun linkFailOracle c2Engine).status = EngineStatus.compileFailed ∧
    (compileAndRun linkFailOracle c2Engine).log
      = ["Compile/Link failed: Link error: bad".data] :=
  ⟨rfl, rfl, rfl, rfl⟩

/-- C2 (amended): a vertex or fragment compile failure forwards the
driver diagnostic into the compile log, sets the failed status and
leaves the program untouched; a link failure forwards the diagnostic
and sets the failed status too, but the previously running program has
already been deleted, so the program field is none, not the old
program. -/
theorem c2_amended :
    (∀ (e : Engine) (info : Src) (f l : Option Src),
      compileAndRun { vsInfo := some info, fsInfo := f, linkInfo := l } e =
        { e with status := EngineStatus.compileFailed,
                 log := ("Compile/Link failed: ".data ++ info) :: e.log }) ∧
    (∀ (e : Engine) (info : Src) (l : Option Src),
      compileAndRun { vsInfo := none, fsInfo := some info, linkInfo := l } e =
        { e with status := EngineStatus.compileFailed,
                 log := ("Compile/Link failed: ".data ++ info) :: e.log }) ∧
    (∀ (e : Engine) (info : Src),
      compileAndRun { vsInfo := none, fsInfo := none, linkInfo := some info } e =
        { e with program := none,
                 status := EngineStatus.compileFailed,
                 log := ("Compile/Link failed: Link error: ".data ++ info) :: e.log }) :=
  ⟨fun _ _ _ _ => rfl, fun _ _ _ => rfl, fun _ _ => rfl⟩

/-! ## Claim C3 -/

/-- A designated fault inside the step range propagates to the catch. -/
theorem runStepsExc_error :
    ∀ (fs : List (Src → Src)) (i k : Nat) (s : Src), i ≤ k → k < i + fs.length →
      runStepsExc (some k) i fs s = Except.error () := by
  intro fs
  induction fs with
  | nil => intro i k s h1 h2; simp only [List.length_nil] at h2; omega
  | cons f fs ih =>
    intro i k s h1 h2
    by_cases hik : k = i
    · subst hik; simp [runStepsExc]
    · have h3 : i + 1 ≤ k := by omega
      have h4 : k < (i + 1) + fs.length := by
        simp only [List.length_cons] at h2; omega
      simp only [runStepsExc]
      rw [if_neg (by simp only [Option.some.injEq]; omega)]
      exact ih (i + 1) k (f s) h3 h4

/-- Without a designated fault the run is the plain fold of the steps. -/
theorem runStepsExc_none :
    ∀ (fs : List (Src → Src)) (i : Nat) (s : Src),
      runStepsExc none i fs s = Except.ok (fs.foldl (fun s f => f s) s) := by
  intro fs
  induction fs with
  | nil => intro i s; rfl
  | cons f fs ih =>
    intro i s
    simp only [runStepsExc, List.foldl_cons]
    rw [if_neg (by simp)]
    exact ih (i + 1) (f s)

/-- C3: counterexample.  The claim says an internal exception skips only
the failing step while the remaining steps still run; the catch wraps the
whole pipeline and returns the original argument, so with a fault at the
texture step the result is the untouched input, not the input with the
other nine steps applied. -/
theorem c3_counterexample :
    (smartFixShaderFaulty (some 3) "x = 1".data).1 ≠ specSkipPipeline (some 3) "x = 1".data ∧
    (smartFixShaderFaulty (some 3) "x = 1".data).1 = "x = 1".data :=
  ⟨by decide, by decide⟩

/-- The faultless run of the remediation operation sequence is exactly
parseErrorsAndFix. -/
theorem remediateOps_foldl (logsText code : Src) :
    (remediateOps logsText).foldl (fun s f => f s) code
      = parseErrorsAndFix code logsText := by
  have h : ∀ (l : List Src) (b : Src),
      List.foldl (fun s f => f s) b (l.map (fun err s => applyErrLine s err))
        = List.foldl applyErrLine b l := by
    intro l
    induction l with
    | nil => intro b; rfl
    | cons e l ih =>
      intro b
      simp only [List.map_cons, List.foldl_cons]
      exact ih (applyErrLine b e)
  rw [remediateOps, parseErrorsAndFix, List.foldl_append, h]
  simp only [List.foldl_cons, List.foldl_nil]

/-- C3 (amended): repair and remediate are both total and never raise
past their boundary — with a fault at any step of either pipeline, that
function's single catch returns the original source unchanged together
with one error trace entry, and the steps after the fault (including
remediate's final repair pass) do not run; without a fault each pipeline
is the plain composition of its steps. -/
theorem c3_amended :
    (∀ (k : Nat) (code : Src), k < fixStepsList.length →
      smartFixShaderFaulty (some k) code = (code, true)) ∧
    (∀ code : Src, smartFixShaderFaulty none code = (smartFixShader code, false)) ∧
    (∀ (k : Nat) (code logsText : Src), k < (remediateOps logsText).length →
      parseErrorsAndFixFaulty (some k) code logsText = (code, true)) ∧
    (∀ (code logsText : Src),
      parseErrorsAndFixFaulty none code logsText = (parseErrorsAndFix code logsText, false)) := by
  refine ⟨fun k code hk => ?_, fun code => ?_,
    fun k code logsText hk => ?_, fun code logsText => ?_⟩
  · rw [smartFixShaderFaulty,
      runStepsExc_error fixStepsList 0 k code (Nat.zero_le k) (by omega)]
  · rw [smartFixShaderFaulty, runStepsExc_none]
    rfl
  · rw [parseErrorsAndFixFaulty,
      runStepsExc_error (remediateOps logsText) 0 k code (Nat.zero_le k) (by omega)]
  · rw [parseErrorsAndFixFaulty, runStepsExc_none, remediateOps_foldl]

/-- C3: witness for the amended theorem, with a fault at the texture step
of repair and at the first patch application of remediate. -/
theorem c3_witness :
    (3 < fixStepsList.length ∧ smartFixShaderFaulty (some 3) "y".data = ("y".data, true)) ∧
    (0 < (remediateOps "no errors".data).length ∧
      parseErrorsAndFixFaulty (some 0) "y2".data "no errors".data = ("y2".data, true)) :=
  ⟨⟨by decide, c3_amended.1 3 "y".data (by decide)⟩,
   ⟨by decide, c3_amended.2.2.1 0 "y2".data "no errors".data (by decide)⟩⟩

/-! ## Claim C7 -/

/-- C7: for the undeclared-identifier diagnostic about foo, remediation
prepends a uniform float declaration of foo before the final repair pass;
the identifier is the captured group sanitized to word characters, and a
group that sanitizes to nothing is skipped. -/
theorem c7_undeclared_prepend :
    (∀ src : Src, parseErrorsAndFix src fooLine
        = smartFixShader ("uniform float foo;\n".data ++ src)) ∧
    (∀ src : Src, parseErrorsAndFix src messyLine
        = smartFixShader ("uniform float foo9;\n".data ++ src)) ∧
    (∀ src : Src, parseErrorsAndFix src pctLine = smartFixShader src) :=
  ⟨fun _ => rfl, fun _ => rfl, fun _ => rfl⟩

/-! ## Claim C9 -/

/-- Every clamped zoom write lands inside the interval. -/
theorem clampZoom_bounds (v : ℚ) : 0.18 ≤ clampZoom v ∧ clampZoom v ≤ 6.0 :=
  ⟨le_max_left _ _, max_le (by norm_num) (min_le_left _ _)⟩

/-- One gesture preserves the zoom interval. -/
theorem applyGesture_zoom_inv (s : Interaction) (g : Gesture)
    (h : 0.18 ≤ s.zoom ∧ s.zoom ≤ 6.0) :
    0.18 ≤ (applyGesture s g).zoom ∧ (applyGesture s g).zoom ≤ 6.0 := by
  cases g with
  | wheel dy => exact clampZoom_bounds _
  | pinchStart d => exact h
  | pinchMove nd =>
    by_cases hp : s.pinchDist = 0
    · simpa [applyGesture, hp] using h
    · simpa [applyGesture, hp] using clampZoom_bounds (s.zoom * (nd / s.pinchDist))
  | clickEv => exact h
  | touchEndEv => exact h

/-- A fold of gestures preserves the zoom interval. -/
theorem foldl_zoom_inv :
    ∀ (gs : List Gesture) (s : Interaction), 0.18 ≤ s.zoom ∧ s.zoom ≤ 6.0 →
      0.18 ≤ (gs.foldl applyGesture s).zoom ∧ (gs.foldl applyGesture s).zoom ≤ 6.0 := by
  intro gs
  induction gs with
  | nil => intro s h; simpa using h
  | cons g gs ih =>
    intro s h
    simp only [List.foldl_cons]
    exact ih (applyGesture s g) (applyGesture_zoom_inv s g h)

/-- C9: starting from the initial interaction state, any finite sequence
of wheel and pinch gestures leaves the zoom inside the closed interval
from 0.18 to 6. -/
theorem c9_zoom_clamped (gs : List Gesture) :
    0.18 ≤ (gs.foldl applyGesture initInteraction).zoom ∧
    (gs.foldl applyGesture initInteraction).zoom ≤ 6.0 :=
  foldl_zoom_inv gs initInteraction (by norm_num [initInteraction])

/-! ## Claim C10 -/

/-- Trimming an all-whitespace line gives the empty line. -/
theorem trimStr_all_space (s : Src) (h : s.all isJsSpace = true) : trimStr s = [] := by
  have h1 : s.dropWhile isJsSpace = [] := by
    rw [List.dropWhile_eq_nil_iff]
    intro x hx
    exact List.all_eq_true.mp h x hx
  simp [trimStr, h1]

/-- Splitting never produces an empty list of lines. -/
theorem splitNl_ne_nil : ∀ s : Src, splitNl s ≠ [] := by
  intro s
  cases s with
  | nil => simp [splitNl]
  | cons c rest =>
    rw [splitNl]
    by_cases hc : c = '\n'
    · simp [hc]
    · simp only [hc, if_false]
      cases splitNl rest <;> simp

/-- Every line of a split inherits a character-wise property. -/
theorem splitNl_all (p : Char → Bool) :
    ∀ (s : Src), s.all p = true → ∀ t ∈ splitNl s, t.all p = true := by
  intro s
  induction s with
  | nil =>
    intro _ t ht
    simp only [splitNl, List.mem_singleton] at ht
    subst ht; rfl
  | cons c rest ih =>
    intro h t ht
    rw [List.all_cons, Bool.and_eq_true] at h
    rw [splitNl] at ht
    by_cases hnl : c = '\n'
    · rw [if_pos hnl] at ht
      rcases List.mem_cons.mp ht with rfl | ht2
      · rfl
      · exact ih h.2 t ht2
    · rw [if_neg hnl] at ht
      cases hsp : splitNl rest with
      | nil => exact absurd hsp (splitNl_ne_nil rest)
      | cons t0 ts =>
        rw [hsp] at ht
        rcases List.mem_cons.mp ht with rfl | ht2
        · have ht0 : t0.all p = true :=
            ih h.2 t0 (by rw [hsp]; exact List.mem_cons_self t0 ts)
          simp [List.all_cons, h.1, ht0]
        · exact ih h.2 t (by rw [hsp]; exact List.mem_cons_of_mem t0 ht2)

/-- Blank diagnostic text selects no candidate error lines. -/
theorem candidateErrorLines_blank (ws : Src) (h : ws.all isJsSpace = true) :
    candidateErrorLines ws = [] := by
  have hlines : ((splitNl ws).map trimStr).filter (fun l => !l.isEmpty) = [] := by
    rw [List.filter_eq_nil_iff]
    intro a ha
    obtain ⟨t, ht, rfl⟩ := List.mem_map.mp ha
    have h0 := trimStr_all_space t (splitNl_all isJsSpace ws h t ht)
    simp [h0]
  simp [candidateErrorLines, hlines]

/-- C10: on diagnostic text that is empty or whitespace only, remediation
applies no log-derived patch and equals plain repair. -/
theorem c10_blank_logs (code ws : Src) (h : ws.all isJsSpace = true) :
    parseErrorsAndFix code ws = smartFixShader code := by
  rw [parseErrorsAndFix, candidateErrorLines_blank ws h]
  rfl

/-- C10: witness at a concrete whitespace-only diagnostic text. -/
theorem c10_witness :
    (" \n ".data.all isJsSpace = true) ∧
      parseErrorsAndFix "x = 1;".data " \n ".data = smartFixShader "x = 1;".data :=
  ⟨by decide, c10_blank_logs "x = 1;".data " \n ".data (by decide)⟩

end ShaderFix
